import Mathlib

/-
Verification of the `dirs` package (dirs/dirs.go): path-table recomputation
under a configurable root directory, snap mount-directory probing, home
directory sets with derived globs, and root-change callbacks.

The Go standard library functions used by the package
(`path/filepath.Clean`, `Join`, `Rel`, `IsAbs` on Unix, and
`strings.Split`/`HasPrefix`/`HasSuffix`) are modelled below on `List Char`,
following the Go sources: `Clean` is the lazybuf algorithm expressed over
the list of `/`-separated components (empty and `.` components are dropped,
`..` pops a previous real component, cannot pop past the start of a rooted
path, and is kept literally in unrooted paths); `Join` drops leading empty
elements and cleans the `/`-joined remainder; `Rel` cleans both paths,
compares their `/`-separated elements in lockstep and either returns the
target remainder or climbs with `..` elements.

Filesystem probes (`os.Lstat`, `os.Readlink`, `os.Stat`) and the release
oracle (`release.DistroLike`, `release.OnClassic`) are abstracted into an
`Env` record of response functions; `SetRootDir` is a function from an
environment, the requested root and the previous package state to the new
package state plus the trace of callback invocations (each invocation
records the callback, the argument passed, and the package state the
callback observes at that moment).
-/

set_option autoImplicit false

namespace Dirs

/-! ## Character-list string primitives (Go `strings` / `path/filepath`) -/

/-- Split a character list at every occurrence of the separator, keeping
empty pieces, as Go `strings.Split` does for a one-character separator. -/
def splitOnC (sep : Char) : List Char → List (List Char)
  | [] => [[]]
  | c :: cs =>
    if c = sep then [] :: splitOnC sep cs
    else
      match splitOnC sep cs with
      | [] => [[c]]
      | h :: t => (c :: h) :: t

/-- Join character-list pieces with a single separator character
(the inverse of `splitOnC`, Go `strings.Join`). -/
def joinC (sep : Char) : List (List Char) → List Char
  | [] => []
  | [x] => x
  | x :: y :: t => x ++ sep :: joinC sep (y :: t)

/-- Go `strings.HasPrefix p s` (does `s` start with `p`). -/
def strHasPre (p s : String) : Bool :=
  List.isPrefixOf p.data s.data

/-- Go `strings.HasSuffix`: does `s` end with `p`. -/
def strHasSuf (p s : String) : Bool :=
  List.isSuffixOf p.data s.data

/-- Go `filepath.IsAbs` on Unix: `strings.HasPrefix(path, "/")`. -/
def isAbs (s : String) : Bool :=
  strHasPre "/" s

/-! ## `filepath.Clean` -/

/-- The component `..`. -/
def dotdot : List Char := ['.', '.']

/-- Core of Go `filepath.Clean`: process the `/`-separated components of a
path left to right, keeping a stack of output components (head = most
recent).  Empty and `.` components are dropped; `..` pops the latest real
component when one is available, is dropped at the start of a rooted path,
and is kept when the path is unrooted and nothing can be popped. -/
def cleanStack (rooted : Bool) : List (List Char) → List (List Char) → List (List Char)
  | stack, [] => stack
  | stack, p :: ps =>
    if p = [] ∨ p = ['.'] then cleanStack rooted stack ps
    else if p = dotdot then
      match stack with
      | [] => if rooted then cleanStack rooted [] ps else cleanStack rooted [dotdot] ps
      | q :: qs =>
        if q = dotdot then cleanStack rooted (dotdot :: q :: qs) ps
        else cleanStack rooted qs ps
    else cleanStack rooted (p :: stack) ps

/-- The cleaned components of a path, in order. -/
def cleanParts (rooted : Bool) (parts : List (List Char)) : List (List Char) :=
  (cleanStack rooted [] parts).reverse

/-- Go `filepath.Clean` on a character list (Unix rules): an empty path
cleans to `.`; otherwise the cleaned components are rendered, retaining
the leading separator of a rooted path, with `/` for an emptied rooted
path and `.` for an emptied unrooted one. -/
def cleanL (s : List Char) : List Char :=
  match s with
  | [] => ['.']
  | c :: _ =>
    if c = '/' then
      match cleanParts true (splitOnC '/' s) with
      | [] => ['/']
      | comps => '/' :: joinC '/' comps
    else
      match cleanParts false (splitOnC '/' s) with
      | [] => ['.']
      | comps => joinC '/' comps

/-- Go `filepath.Clean`. -/
def clean (s : String) : String :=
  String.mk (cleanL s.data)

/-- Go `filepath.Join` on Unix: drop leading empty elements, join the rest
with `/` and clean the result; all elements empty yields the empty string. -/
def goJoin (elems : List String) : String :=
  match elems.dropWhile (fun e => e = "") with
  | [] => ""
  | rest => clean (String.mk (joinC '/' (rest.map (fun e => e.data))))

/-! ## `filepath.Rel` -/

/-- Drop the common leading elements of two component lists (the lockstep
element comparison in Go `filepath.Rel`). -/
def stripCommon : List (List Char) → List (List Char) → List (List Char) × List (List Char)
  | b :: bs, t :: ts =>
    if b = t then stripCommon bs ts else (b :: bs, t :: ts)
  | bs, ts => (bs, ts)

/-- Go `filepath.Rel` on Unix.  Cleans both paths; identical cleanings give
`.`; a rooted/unrooted mismatch or a remaining `..` base element is an
error; otherwise the result climbs out of the remaining base elements with
`..` and descends into the remaining target elements. -/
def rel (basepath targpath : String) : Except String String :=
  let base0 := clean basepath
  let targ := clean targpath
  if targ = base0 then .ok "."
  else
    let base := if base0 = "." then "" else base0
    let baseSlashed := isAbs base
    let targSlashed := isAbs targ
    if baseSlashed ≠ targSlashed then
      .error ("Rel: can't make " ++ targpath ++ " relative to " ++ basepath)
    else
      let p := stripCommon (splitOnC '/' base.data) (splitOnC '/' targ.data)
      let bs := if p.1 = [[]] then [] else p.1
      let ts := if p.2 = [[]] then [] else p.2
      if bs.headD [] = dotdot then
        .error ("Rel: can't make " ++ targpath ++ " relative to " ++ basepath)
      else if bs = [] then
        .ok (String.mk (joinC '/' ts))
      else
        .ok (String.mk (joinC '/' (List.replicate bs.length dotdot ++ ts)))

/-! ## Constants of the `dirs` package -/

def DefaultSnapMountDir : String := "/snap"

def AltSnapMountDir : String := "/var/lib/snapd/snap"

def DefaultDistroLibexecDir : String := "/usr/lib/snapd"

def AltDistroLibexecDir : String := "/usr/libexec/snapd"

def CoreLibExecDir : String := "/usr/lib/snapd"

def CoreSnapMountDir : String := "/snap"

def UserHomeSnapDir : String := "snap"

def HiddenSnapDataHomeDir : String := ".snap/data"

def ExposedSnapHomeDir : String := "Snap"

/-- `filepath.Join("var", "lib", "snapd")`. -/
def snappyDir : String := goJoin ["var", "lib", "snapd"]

def metaSnapPath : String := "/meta/snap.yaml"

/-- Distributions known to use `/snap` but packaged in a special way. -/
def specialDefaultDirDistros : List String := ["ubuntucoreinitramfs"]

/-- Well known default published when the mount dir cannot be resolved. -/
def snapMountDirUnresolvedPlaceholder : String := "mount-dir-is-unset"

/-! ## Environment: filesystem probes and the release oracle -/

/-- The relevant part of a `fs.FileMode` as inspected by the probe:
the symlink bit is checked first, then `IsDir()`, anything else falls
through. -/
inductive FileMode where
  | symlink
  | dir
  | other
deriving DecidableEq

/-- Outcome of `os.Lstat`: not-exist error, any other error, or a file
info with a mode. -/
inductive LstatResult where
  | errNotExist
  | errOther (msg : String)
  | entry (mode : FileMode)
deriving DecidableEq

/-- Outcome of `os.Stat` where only `err == nil` vs
`errors.Is(err, fs.ErrNotExist)` vs other errors matter. -/
inductive StatResult where
  | ok
  | errNotExist
  | errOther
deriving DecidableEq

/-- The effectful collaborators of the package, abstracted as response
functions: `release.DistroLike` for a single family name,
`release.OnClassic`, and the `os.Lstat`/`os.Readlink`/`os.Stat` responses
for each path. -/
structure Env where
  distroLike : String → Bool
  onClassic : Bool
  lstat : String → LstatResult
  readlink : String → Except String String
  stat : String → StatResult

/-- `release.DistroLike(names...)`: true when any family name matches. -/
def DistroLike (env : Env) (names : List String) : Bool :=
  names.any env.distroLike

/-- `isInsideBaseSnap`: `os.Stat(metaSnapPath)` succeeded.  (The error
returned alongside the boolean is discarded by `SetRootDir`.) -/
def isInsideBaseSnap (env : Env) : Bool :=
  match env.stat metaSnapPath with
  | .ok => true
  | _ => false

/-! ## The mount-directory probe -/

/-- `snapMountDirProbe`: decide between `rootdir/snap` and
`rootdir/var/lib/snapd/snap` from the state of `rootdir/snap` on disk. -/
def snapMountDirProbe (env : Env) (rootdir : String) : Except String String :=
  let defaultDir := goJoin [rootdir, DefaultSnapMountDir]
  let altDir := goJoin [rootdir, AltSnapMountDir]
  if DistroLike env specialDefaultDirDistros then .ok defaultDir
  else
    match env.lstat defaultDir with
    | .errNotExist => .ok altDir
    | .errOther msg => .error ("cannot stat " ++ defaultDir ++ ": " ++ msg)
    | .entry mode =>
      match mode with
      | .symlink =>
        match env.readlink defaultDir with
        | .error e => .error e
        | .ok p =>
          if p ≠ AltSnapMountDir ∧ p ≠ AltSnapMountDir.drop 1 ∧ p ≠ altDir then
            .error (defaultDir ++ " must be a symbolic link to " ++ AltSnapMountDir)
          else .ok altDir
      | .dir => .ok defaultDir
      | .other => .error "internal error: unresolved snap mount dir"

/-! ## Home directory set -/

/-- The per-entry loop of `SetSnapHomeDirs`: an empty input gives no
user-supplied entries; otherwise split the comma-separated list, clean
each entry, and re-root entries not already under the global root. -/
def snapHomeUserDirs (globalRootDir : String) (homedirs : String) : List String :=
  if homedirs = "" then []
  else
    ((splitOnC ',' homedirs.data).map (fun h => String.mk h)).map (fun h =>
      let h := clean h
      let grd :=
        if globalRootDir ≠ "/" ∧ strHasSuf "/" globalRootDir = false then
          globalRootDir ++ "/"
        else globalRootDir
      if strHasPre grd h = false then goJoin [globalRootDir, h] else h)

/-- `SetSnapHomeDirs`: process the user-supplied entries, derive one
standard and one hidden glob per entry, and append the root-qualified
`/home` (with its globs) when absent.  Returns the triple
(`snapHomeDirs`, `snapDataHomeGlob`, `hiddenSnapDataHomeGlob`); the Go
function mutates three package variables under a mutex and returns the
first, and the global root it reads is passed here as a parameter. -/
def SetSnapHomeDirs (globalRootDir : String) (homedirs : String) :
    List String × List String × List String :=
  let userDirs : List String := snapHomeUserDirs globalRootDir homedirs
  let dataGlob := userDirs.map (fun h => goJoin [h, "*", UserHomeSnapDir])
  let hiddenGlob := userDirs.map (fun h => goJoin [h, "*", HiddenSnapDataHomeDir])
  let home := goJoin [globalRootDir, "/home"]
  if userDirs.contains home then
    (userDirs, dataGlob, hiddenGlob)
  else
    (userDirs ++ [home],
     dataGlob ++ [goJoin [globalRootDir, "/home", "*", UserHomeSnapDir]],
     hiddenGlob ++ [goJoin [globalRootDir, "/home", "*", HiddenSnapDataHomeDir]])

/-! ## The package state -/

/-- All package-level path variables of the `dirs` package, plus the
mount-dir detection error, the home-dir set with its two glob lists, and
the registered callbacks (represented by identifiers, in registration
order).  Defaults are the Go zero values. -/
structure DirsState where
  GlobalRootDir : String := ""
  RunDir : String := ""
  SnapMountDir : String := ""
  DistroLibExecDir : String := ""
  hiddenSnapDataHomeGlob : List String := []
  SnapBlobDir : String := ""
  SnapDataDir : String := ""
  snapDataHomeGlob : List String := []
  SnapDownloadCacheDir : String := ""
  SnapAppArmorDir : String := ""
  SnapLdconfigDir : String := ""
  SnapSeccompBase : String := ""
  SnapSeccompDir : String := ""
  SnapMountPolicyDir : String := ""
  SnapCgroupPolicyDir : String := ""
  SnapUdevRulesDir : String := ""
  SnapKModModulesDir : String := ""
  SnapKModModprobeDir : String := ""
  LocaleDir : String := ""
  SnapdSocket : String := ""
  SnapSocket : String := ""
  SnapRunDir : String := ""
  SnapRunNsDir : String := ""
  SnapRunLockDir : String := ""
  SnapBootstrapRunDir : String := ""
  SnapVoidDir : String := ""
  SnapInterfacesRequestsRunDir : String := ""
  SnapInterfacesRequestsStateDir : String := ""
  SnapdMaintenanceFile : String := ""
  SnapdStoreSSLCertsDir : String := ""
  SnapSeedDir : String := ""
  SnapDeviceDir : String := ""
  SnapAssertsDBDir : String := ""
  SnapCookieDir : String := ""
  SnapTrustedAccountKey : String := ""
  SnapAssertsSpoolDir : String := ""
  SnapSeqDir : String := ""
  SnapStateFile : String := ""
  SnapStateLockFile : String := ""
  SnapSystemKeyFile : String := ""
  SnapRepairConfigFile : String := ""
  SnapRepairDir : String := ""
  SnapRepairStateFile : String := ""
  SnapRepairRunDir : String := ""
  SnapRepairAssertsDir : String := ""
  SnapRunRepairDir : String := ""
  SnapRollbackDir : String := ""
  SnapCacheDir : String := ""
  SnapNamesFile : String := ""
  SnapSectionsFile : String := ""
  SnapCommandsDB : String := ""
  SnapAuxStoreInfoDir : String := ""
  SnapIconsPoolDir : String := ""
  SnapIconsDir : String := ""
  SnapBinariesDir : String := ""
  SnapServicesDir : String := ""
  SnapRuntimeServicesDir : String := ""
  SnapUserServicesDir : String := ""
  SnapSystemdConfDir : String := ""
  SnapDesktopFilesDir : String := ""
  SnapDesktopIconsDir : String := ""
  SnapPolkitPolicyDir : String := ""
  SnapPolkitRuleDir : String := ""
  SnapSystemdDir : String := ""
  SnapSystemdRunDir : String := ""
  SnapDBusSessionPolicyDir : String := ""
  SnapDBusSystemPolicyDir : String := ""
  SnapDBusSessionServicesDir : String := ""
  SnapDBusSystemServicesDir : String := ""
  SnapModeenvFile : String := ""
  SnapBootAssetsDir : String := ""
  SnapFDEDir : String := ""
  SnapSaveDir : String := ""
  SnapDeviceSaveDir : String := ""
  SnapDataSaveDir : String := ""
  SnapGpioChardevDir : String := ""
  CloudMetaDataFile : String := ""
  CloudInstanceDataFile : String := ""
  ClassicDir : String := ""
  XdgRuntimeDirBase : String := ""
  XdgRuntimeDirGlob : String := ""
  CompletionHelperInCore : String := ""
  BashCompletionScript : String := ""
  LegacyCompletersDir : String := ""
  CompletersDir : String := ""
  SystemFontsDir : String := ""
  SystemLocalFontsDir : String := ""
  SystemFontconfigCacheDirs : List String := []
  SnapshotsDir : String := ""
  SysfsDir : String := ""
  DevDir : String := ""
  FeaturesDir : String := ""
  WritableMountPath : String := ""
  WritableUbuntuCoreSystemDataDir : String := ""
  snapHomeDirs : List String := []
  snapMountDirDetectionError : Option String := none
  callbacks : List Nat := []

/-- `SnapMountDirDetectionOutcome`: the error, if any, of the last mount
directory probe. -/
def SnapMountDirDetectionOutcome (s : DirsState) : Option String :=
  s.snapMountDirDetectionError

/-- `SnapHomeDirs` (the getter): a copy of the configured home
directories, or the root-qualified `/home` fallback when empty. -/
def SnapHomeDirs (s : DirsState) : List String :=
  if s.snapHomeDirs = [] then [goJoin [s.GlobalRootDir, "/home"]] else s.snapHomeDirs

/-- Options selecting the hidden glob variant (`SnapDirOptions`). -/
structure SnapDirOptions where
  HiddenSnapDataDir : Bool := false
  MigratedToExposedHome : Bool := false

/-- `DataHomeGlobs`: the hidden-variant globs when requested, otherwise
the standard ones. -/
def DataHomeGlobs (opts : Option SnapDirOptions) (s : DirsState) : List String :=
  match opts with
  | some o => if o.HiddenSnapDataDir then s.hiddenSnapDataHomeGlob else s.snapDataHomeGlob
  | none => s.snapDataHomeGlob

/-- `AddRootDirCallback`: append a subscriber. -/
def AddRootDirCallback (c : Nat) (s : DirsState) : DirsState :=
  { s with callbacks := s.callbacks ++ [c] }

/-- `StripRootDir`: `none` models the panic on a non-absolute path, a path
without the global root as prefix, or a `filepath.Rel` error. -/
def StripRootDir (globalRootDir dir : String) : Option String :=
  if isAbs dir = false then none
  else if strHasPre globalRootDir dir = false then none
  else
    match rel globalRootDir dir with
    | .error _ => none
    | .ok result => some ("/" ++ result)

/-! ## Helper path derivations (`...Under` functions) -/

def SnapdStateDir (rootdir : String) : String := goJoin [rootdir, snappyDir]

def SnapBlobDirUnder (rootdir : String) : String := goJoin [rootdir, snappyDir, "snaps"]

def SnapSeedDirUnder (rootdir : String) : String := goJoin [rootdir, snappyDir, "seed"]

def SnapStateFileUnder (rootdir : String) : String := goJoin [rootdir, snappyDir, "state.json"]

def SnapStateLockFileUnder (rootdir : String) : String := goJoin [rootdir, snappyDir, "state.lock"]

def SnapModeenvFileUnder (rootdir : String) : String := goJoin [rootdir, snappyDir, "modeenv"]

def FeaturesDirUnder (rootdir : String) : String := goJoin [rootdir, snappyDir, "features"]

def SnapSystemdConfDirUnder (rootdir : String) : String := goJoin [rootdir, "/etc/systemd/system.conf.d"]

def SnapServicesDirUnder (rootdir : String) : String := goJoin [rootdir, "/etc/systemd/system"]

def SnapRuntimeServicesDirUnder (rootdir : String) : String := goJoin [rootdir, "/run/systemd/system"]

def SnapSystemdDirUnder (rootdir : String) : String := goJoin [rootdir, "/etc/systemd"]

def SnapBootAssetsDirUnder (rootdir : String) : String := goJoin [rootdir, snappyDir, "boot-assets"]

def SnapDeviceDirUnder (rootdir : String) : String := goJoin [rootdir, snappyDir, "device"]

def SnapFDEDirUnder (rootdir : String) : String := goJoin [SnapDeviceDirUnder rootdir, "fde"]

def SnapSaveDirUnder (rootdir : String) : String := goJoin [rootdir, snappyDir, "save"]

def SnapRepairConfigFileUnder (rootdir : String) : String := goJoin [rootdir, snappyDir, "repair.json"]

/-! ## `SetRootDir` -/

/-- One callback invocation during `SetRootDir`: the callback identifier,
the root string passed to it, and the package state it observes at that
moment. -/
structure CallbackEvent where
  cb : Nat
  arg : String
  observed : DirsState

/-- `SetRootDir`: normalize the empty root to `/`, resolve the mount dir
(forced to `rootdir/snap` inside a base snap, otherwise probed, degrading
to the placeholder on probe failure), recompute every path variable,
reset the home dirs to `/home`, invoke the callbacks in registration
order, and only afterwards assign the two writable-mount variables.
Returns the new state and the callback invocation trace. -/
def SetRootDir (env : Env) (rootdir0 : String) (s : DirsState) :
    DirsState × List CallbackEvent :=
  let rootdir := if rootdir0 = "" then "/" else rootdir0
  let isInsideBase := isInsideBaseSnap env
  let snapMountDir :=
    if isInsideBase then goJoin [rootdir, DefaultSnapMountDir]
    else
      match snapMountDirProbe env rootdir with
      | .ok dir => dir
      | .error _ => snapMountDirUnresolvedPlaceholder
  let snapMountDirErr :=
    if isInsideBase then s.snapMountDirDetectionError
    else
      match snapMountDirProbe env rootdir with
      | .ok _ => none
      | .error e => some ("cannot resolve snap mount directory: " ++ e)
  let snapRunDir := goJoin [rootdir, "/run/snapd"]
  let snapCacheDir := goJoin [rootdir, "/var/cache/snapd"]
  let snapSaveDir := goJoin [rootdir, snappyDir, "save"]
  let snapRepairDir := goJoin [rootdir, snappyDir, "repair"]
  let devDir := goJoin [rootdir, "/dev"]
  let distroLibExecDirDefault := goJoin [rootdir, DefaultDistroLibexecDir]
  let distroLibExecDir :=
    if env.stat distroLibExecDirDefault = StatResult.errNotExist then
      if env.stat (goJoin [rootdir, AltDistroLibexecDir]) = StatResult.ok then
        goJoin [rootdir, AltDistroLibexecDir]
      else distroLibExecDirDefault
    else distroLibExecDirDefault
  let xdgRuntimeDirBase := goJoin [rootdir, "/run/user"]
  let homeTriple := SetSnapHomeDirs rootdir "/home"
  let sMid : DirsState :=
    { GlobalRootDir := rootdir
      SnapMountDir := snapMountDir
      snapMountDirDetectionError := snapMountDirErr
      SnapDataDir := goJoin [rootdir, "/var/snap"]
      SnapAppArmorDir := goJoin [rootdir, snappyDir, "apparmor", "profiles"]
      SnapLdconfigDir := goJoin [rootdir, "/etc/ld.so.conf.d"]
      SnapDownloadCacheDir := goJoin [rootdir, snappyDir, "cache"]
      SnapSeccompBase := goJoin [rootdir, snappyDir, "seccomp"]
      SnapSeccompDir := goJoin [goJoin [rootdir, snappyDir, "seccomp"], "bpf"]
      SnapMountPolicyDir := goJoin [rootdir, snappyDir, "mount"]
      SnapCgroupPolicyDir := goJoin [rootdir, snappyDir, "cgroup"]
      SnapdMaintenanceFile := goJoin [rootdir, snappyDir, "maintenance.json"]
      SnapBlobDir := SnapBlobDirUnder rootdir
      SnapVoidDir := goJoin [rootdir, snappyDir, "void"]
      SnapDesktopFilesDir := goJoin [rootdir, snappyDir, "desktop", "applications"]
      SnapDesktopIconsDir := goJoin [rootdir, snappyDir, "desktop", "icons"]
      RunDir := goJoin [rootdir, "/run"]
      SnapRunDir := snapRunDir
      SnapRunNsDir := goJoin [snapRunDir, "/ns"]
      SnapRunLockDir := goJoin [snapRunDir, "/lock"]
      SnapBootstrapRunDir := goJoin [snapRunDir, "snap-bootstrap"]
      SnapInterfacesRequestsRunDir := goJoin [snapRunDir, "interfaces-requests"]
      SnapInterfacesRequestsStateDir := goJoin [rootdir, snappyDir, "interfaces-requests"]
      SnapdStoreSSLCertsDir := goJoin [rootdir, snappyDir, "ssl/store-certs"]
      SnapdSocket := goJoin [rootdir, "/run/snapd.socket"]
      SnapSocket := goJoin [rootdir, "/run/snapd-snap.socket"]
      SnapAssertsDBDir := goJoin [rootdir, snappyDir, "assertions"]
      SnapCookieDir := goJoin [rootdir, snappyDir, "cookie"]
      SnapAssertsSpoolDir := goJoin [rootdir, "run/snapd/auto-import"]
      SnapSeqDir := goJoin [rootdir, snappyDir, "sequence"]
      SnapStateFile := SnapStateFileUnder rootdir
      SnapStateLockFile := SnapStateLockFileUnder rootdir
      SnapSystemKeyFile := goJoin [rootdir, snappyDir, "system-key"]
      SnapCacheDir := snapCacheDir
      SnapNamesFile := goJoin [snapCacheDir, "names"]
      SnapSectionsFile := goJoin [snapCacheDir, "sections"]
      SnapCommandsDB := goJoin [snapCacheDir, "commands.db"]
      SnapAuxStoreInfoDir := goJoin [snapCacheDir, "aux"]
      SnapIconsPoolDir := goJoin [snapCacheDir, "icons-pool"]
      SnapIconsDir := goJoin [snapCacheDir, "icons"]
      SnapSeedDir := SnapSeedDirUnder rootdir
      SnapDeviceDir := SnapDeviceDirUnder rootdir
      SnapModeenvFile := SnapModeenvFileUnder rootdir
      SnapBootAssetsDir := SnapBootAssetsDirUnder rootdir
      SnapFDEDir := SnapFDEDirUnder rootdir
      SnapSaveDir := snapSaveDir
      SnapDeviceSaveDir := goJoin [snapSaveDir, "device"]
      SnapDataSaveDir := goJoin [snapSaveDir, "snap"]
      SnapRepairConfigFile := SnapRepairConfigFileUnder rootdir
      SnapRepairDir := snapRepairDir
      SnapRepairStateFile := goJoin [snapRepairDir, "repair.json"]
      SnapRepairRunDir := goJoin [snapRepairDir, "run"]
      SnapRepairAssertsDir := goJoin [snapRepairDir, "assertions"]
      SnapRunRepairDir := goJoin [snapRunDir, "repair"]
      SnapRollbackDir := goJoin [rootdir, snappyDir, "rollback"]
      SnapBinariesDir := goJoin [snapMountDir, "bin"]
      SnapServicesDir := SnapServicesDirUnder rootdir
      SnapRuntimeServicesDir := SnapRuntimeServicesDirUnder rootdir
      SnapUserServicesDir := goJoin [rootdir, "/etc/systemd/user"]
      SnapSystemdConfDir := SnapSystemdConfDirUnder rootdir
      SnapSystemdDir := goJoin [rootdir, "/etc/systemd"]
      SnapSystemdRunDir := goJoin [rootdir, "/run/systemd"]
      SnapDBusSystemPolicyDir := goJoin [rootdir, "/etc/dbus-1/system.d"]
      SnapDBusSessionPolicyDir := goJoin [rootdir, "/etc/dbus-1/session.d"]
      SnapDBusSessionServicesDir := goJoin [rootdir, snappyDir, "dbus-1", "services"]
      SnapDBusSystemServicesDir := goJoin [rootdir, snappyDir, "dbus-1", "system-services"]
      SnapPolkitPolicyDir := goJoin [rootdir, "/usr/share/polkit-1/actions"]
      SnapPolkitRuleDir := goJoin [rootdir, "/etc/polkit-1/rules.d"]
      CloudInstanceDataFile := goJoin [rootdir, "/run/cloud-init/instance-data.json"]
      SnapUdevRulesDir := goJoin [rootdir, "/etc/udev/rules.d"]
      SnapKModModulesDir := goJoin [rootdir, "/etc/modules-load.d/"]
      SnapKModModprobeDir := goJoin [rootdir, "/etc/modprobe.d/"]
      DevDir := devDir
      SnapGpioChardevDir := goJoin [devDir, "/snap/gpio-chardev"]
      LocaleDir := goJoin [rootdir, "/usr/share/locale"]
      ClassicDir := goJoin [rootdir, "/writable/classic"]
      DistroLibExecDir := distroLibExecDir
      XdgRuntimeDirBase := xdgRuntimeDirBase
      XdgRuntimeDirGlob := goJoin [xdgRuntimeDirBase, "*/"]
      CompletionHelperInCore := goJoin [CoreLibExecDir, "etelpmoc.sh"]
      BashCompletionScript := goJoin [rootdir, "/usr/share/bash-completion/bash_completion"]
      LegacyCompletersDir := goJoin [rootdir, "/usr/share/bash-completion/completions/"]
      CompletersDir := goJoin [rootdir, snappyDir, "desktop/bash-completion/completions/"]
      SystemFontsDir := goJoin [rootdir, "/usr/share/fonts"]
      SystemLocalFontsDir := goJoin [rootdir, "/usr/local/share/fonts"]
      SystemFontconfigCacheDirs :=
        if env.distroLike "fedora" ∧ env.distroLike "amzn" = false then
          [goJoin [rootdir, "/var/cache/fontconfig"], goJoin [rootdir, "/usr/lib/fontconfig/cache"]]
        else [goJoin [rootdir, "/var/cache/fontconfig"]]
      SnapshotsDir := goJoin [rootdir, snappyDir, "snapshots"]
      SysfsDir := goJoin [rootdir, "/sys"]
      FeaturesDir := FeaturesDirUnder rootdir
      snapHomeDirs := homeTriple.1
      snapDataHomeGlob := homeTriple.2.1
      hiddenSnapDataHomeGlob := homeTriple.2.2
      SnapTrustedAccountKey := s.SnapTrustedAccountKey
      CloudMetaDataFile := s.CloudMetaDataFile
      WritableMountPath := s.WritableMountPath
      WritableUbuntuCoreSystemDataDir := s.WritableUbuntuCoreSystemDataDir
      callbacks := s.callbacks }
  let events := s.callbacks.map (fun c => CallbackEvent.mk c rootdir sMid)
  let writableMountPath :=
    if env.onClassic then rootdir else goJoin [rootdir, "writable"]
  let sFinal :=
    { sMid with
        WritableMountPath := writableMountPath
        WritableUbuntuCoreSystemDataDir := goJoin [writableMountPath, "system-data"] }
  (sFinal, events)

/-! ## Auxiliary predicates and concrete environments -/

/-- A canonical path component: non-empty, not `.`, not `..`, and free of
separators.  These are the components a rooted `clean` can output. -/
def goodComp (c : List Char) : Prop :=
  c ≠ [] ∧ c ≠ ['.'] ∧ c ≠ dotdot ∧ '/' ∉ c

/-- Shape of a `cleanStack` stack: canonical components on top of a run of
`..` components, and no `..` at all when the path is rooted. -/
def stackShape (rooted : Bool) (st : List (List Char)) : Prop :=
  ∃ g d, st = g ++ d ∧ (∀ c ∈ g, goodComp c) ∧ (∀ c ∈ d, c = dotdot) ∧
    (rooted = true → d = [])

/-- A path lies strictly under a root: the root, extended by a separator,
is a literal prefix of the path.  (Used to state the spec's notion of a
path "lying under the current root"; the code itself checks only
`strings.HasPrefix`.) -/
def isUnderRoot (root p : String) : Bool :=
  strHasPre (if root = "/" then "/" else root ++ "/") p

/-- An environment in which every `os.Lstat` finds a plain directory,
nothing else exists, and no distribution family matches: the mount-dir
probe always resolves to the default candidate. -/
def envDirOk : Env :=
  { distroLike := fun _ => false
    onClassic := true
    lstat := fun _ => .entry .dir
    readlink := fun _ => .error "EINVAL"
    stat := fun _ => .errNotExist }

/-- An environment in which `os.Lstat` finds an entry that is neither a
symlink nor a directory at every path: the mount-dir probe always fails
with its internal-invariant error. -/
def envProbeFail : Env :=
  { distroLike := fun _ => false
    onClassic := true
    lstat := fun _ => .entry .other
    readlink := fun _ => .error "EINVAL"
    stat := fun _ => .errNotExist }

/-- Override an environment so that `os.Lstat` reports a plain directory
at `rootdir/snap`, forcing the mount-dir probe to succeed with the default
candidate; all other responses are unchanged. -/
def withSnapDirOk (env : Env) (rootdir : String) : Env :=
  { env with
      lstat := fun p =>
        if p = goJoin [rootdir, DefaultSnapMountDir] then .entry .dir else env.lstat p }

/-! ## Lemmas: splitting and joining on a separator -/

theorem splitOnC_ne_nil (sep : Char) (s : List Char) : splitOnC sep s ≠ [] := by
  induction s with
  | nil => simp [splitOnC]
  | cons c cs ih =>
    simp only [splitOnC]
    by_cases h : c = sep
    · simp [h]
    · simp only [if_neg h]
      cases hs : splitOnC sep cs <;> simp

theorem joinC_cons (sep : Char) (a : List Char) (l : List (List Char)) (h : l ≠ []) :
    joinC sep (a :: l) = a ++ sep :: joinC sep l := by
  cases l with
  | nil => exact absurd rfl h
  | cons x t => rfl

theorem joinC_splitOnC (sep : Char) (s : List Char) : joinC sep (splitOnC sep s) = s := by
  induction s with
  | nil => rfl
  | cons c cs ih =>
    simp only [splitOnC]
    by_cases h : c = sep
    · simp only [if_pos h]
      rw [joinC_cons sep [] (splitOnC sep cs) (splitOnC_ne_nil sep cs), ih,
        List.nil_append, h]
    · simp only [if_neg h]
      cases hs : splitOnC sep cs with
      | nil => exact absurd hs (splitOnC_ne_nil sep cs)
      | cons x t =>
        rw [hs] at ih
        cases t with
        | nil =>
          simp only [joinC] at ih ⊢
          rw [ih]
        | cons y t2 =>
          rw [joinC_cons sep (c :: x) (y :: t2) (by simp)]
          rw [joinC_cons sep x (y :: t2) (by simp)] at ih
          simp only [List.cons_append]
          rw [ih]

theorem splitOnC_append (sep : Char) (a b : List Char) :
    splitOnC sep (a ++ sep :: b) = splitOnC sep a ++ splitOnC sep b := by
  induction a with
  | nil => simp [splitOnC]
  | cons c cs ih =>
    simp only [List.cons_append, splitOnC]
    by_cases h : c = sep
    · simp [h, ih]
    · simp only [if_neg h]
      simp only [List.append_eq]
      rw [ih]
      cases hs : splitOnC sep cs with
      | nil => exact absurd hs (splitOnC_ne_nil sep cs)
      | cons x t => simp [hs]

theorem splitOnC_no_sep (sep : Char) (s : List Char) :
    ∀ c ∈ splitOnC sep s, sep ∉ c := by
  induction s with
  | nil => simp [splitOnC]
  | cons c cs ih =>
    simp only [splitOnC]
    by_cases h : c = sep
    · simp only [if_pos h, List.mem_cons]
      intro x hx
      rcases hx with hx | hx
      · simp [hx]
      · exact ih x hx
    · simp only [if_neg h]
      cases hs : splitOnC sep cs with
      | nil => exact absurd hs (splitOnC_ne_nil sep cs)
      | cons x t =>
        simp only [List.mem_cons]
        intro y hy
        rcases hy with hy | hy
        · subst hy
          simp only [List.mem_cons, not_or]
          refine ⟨fun hc => h hc.symm, ?_⟩
          exact ih x (by rw [hs]; exact List.mem_cons_self x t)
        · exact ih y (by rw [hs]; exact List.mem_cons_of_mem x hy)

theorem splitOnC_of_no_sep (sep : Char) (s : List Char) (h : sep ∉ s) :
    splitOnC sep s = [s] := by
  induction s with
  | nil => rfl
  | cons c cs ih =>
    simp only [List.mem_cons, not_or] at h
    have hc : ¬c = sep := fun hc => h.1 hc.symm
    simp only [splitOnC, if_neg hc, ih h.2]

theorem splitOnC_joinC (sep : Char) (l : List (List Char)) (hne : l ≠ [])
    (h : ∀ c ∈ l, sep ∉ c) : splitOnC sep (joinC sep l) = l := by
  induction l with
  | nil => exact absurd rfl hne
  | cons x t ih =>
    cases t with
    | nil =>
      simp only [joinC]
      exact splitOnC_of_no_sep sep x (h x (List.mem_cons_self x []))
    | cons y t2 =>
      rw [joinC_cons sep x (y :: t2) (by simp)]
      rw [splitOnC_append sep x (joinC sep (y :: t2))]
      rw [splitOnC_of_no_sep sep x (h x (List.mem_cons_self x (y :: t2)))]
      have ht : splitOnC sep (joinC sep (y :: t2)) = y :: t2 := by
        refine ih (by simp) ?_
        intro d hd
        exact h d (List.mem_cons_of_mem x hd)
      rw [ht]
      rfl

/-! ## Lemmas: the `clean` component stack -/

theorem cleanStack_append (rooted : Bool) (l1 l2 : List (List Char)) (st : List (List Char)) :
    cleanStack rooted st (l1 ++ l2) = cleanStack rooted (cleanStack rooted st l1) l2 := by
  induction l1 generalizing st with
  | nil => rfl
  | cons p ps ih =>
    simp only [List.cons_append, cleanStack]
    by_cases h1 : p = [] ∨ p = ['.']
    · simp only [if_pos h1]
      exact ih st
    · simp only [if_neg h1]
      by_cases h2 : p = dotdot
      · simp only [if_pos h2]
        cases st with
        | nil =>
          cases rooted <;> simp only [ite_true, ite_false, Bool.false_eq_true] <;> exact ih _
        | cons q qs =>
          by_cases h3 : q = dotdot
          · simp only [if_pos h3]
            exact ih _
          · simp only [if_neg h3]
            exact ih _
      · simp only [if_neg h2]
        exact ih _

theorem stackShape_nil (rooted : Bool) : stackShape rooted [] :=
  ⟨[], [], rfl, by simp, by simp, fun _ => rfl⟩

theorem stackShape_elem (rooted : Bool) (st : List (List Char)) (h : stackShape rooted st) :
    ∀ c ∈ st, c ≠ [] ∧ c ≠ ['.'] ∧ '/' ∉ c := by
  obtain ⟨g, d, rfl, hg, hd, -⟩ := h
  intro c hc
  rcases List.mem_append.mp hc with hc | hc
  · obtain ⟨h1, h2, -, h4⟩ := hg c hc
    exact ⟨h1, h2, h4⟩
  · rw [hd c hc]
    refine ⟨by simp [dotdot], by simp [dotdot], by simp [dotdot]⟩

theorem stackShape_rooted_no_dotdot (st : List (List Char)) (h : stackShape true st) :
    ∀ c ∈ st, c ≠ dotdot := by
  obtain ⟨g, d, rfl, hg, -, hr⟩ := h
  rw [hr rfl, List.append_nil]
  intro c hc
  exact (hg c hc).2.2.1

theorem cleanStack_shape (rooted : Bool) (parts : List (List Char)) :
    ∀ st, (∀ c ∈ parts, '/' ∉ c) → stackShape rooted st →
      stackShape rooted (cleanStack rooted st parts) := by
  induction parts with
  | nil => intro st _ hst; exact hst
  | cons p ps ih =>
    intro st hparts hst
    have hp : '/' ∉ p := hparts p (List.mem_cons_self p ps)
    have hps : ∀ c ∈ ps, '/' ∉ c := fun c hc => hparts c (List.mem_cons_of_mem p hc)
    simp only [cleanStack]
    by_cases h1 : p = [] ∨ p = ['.']
    · simp only [if_pos h1]
      exact ih st hps hst
    · simp only [if_neg h1]
      by_cases h2 : p = dotdot
      · simp only [if_pos h2]
        cases st with
        | nil =>
          by_cases hr : rooted = true
          · simp only [if_pos hr]
            exact ih [] hps (stackShape_nil rooted)
          · simp only [if_neg hr]
            refine ih [dotdot] hps ⟨[], [dotdot], rfl, by simp, by simp, fun hc => absurd hc hr⟩
        | cons q qs =>
          obtain ⟨g, d, heq, hg, hd, hr⟩ := hst
          by_cases h3 : q = dotdot
          · simp only [if_pos h3]
            have hgnil : g = [] := by
              cases g with
              | nil => rfl
              | cons g0 gt =>
                exfalso
                have : q = g0 := by simpa using congrArg (fun l => l.headD []) heq
                exact (hg g0 (List.mem_cons_self g0 gt)).2.2.1 (this ▸ h3)
            have hqd : q :: qs = d := by simpa [hgnil] using heq
            have hrooted : rooted = false := by
              cases hrr : rooted with
              | false => rfl
              | true => exact absurd (hqd ▸ hr hrr) (by simp)
            refine ih (dotdot :: q :: qs) hps ?_
            refine ⟨[], dotdot :: q :: qs, by simp, by simp, ?_, by simp [hrooted]⟩
            intro c hc
            rcases List.mem_cons.mp hc with hc | hc
            · exact hc
            · exact hd c (hqd ▸ hc)
          · simp only [if_neg h3]
            have hgcons : ∃ g0 gt, g = g0 :: gt := by
              cases g with
              | nil =>
                exfalso
                have hqd : q ∈ d := by
                  have : q :: qs = d := by simpa using heq
                  rw [← this]; exact List.mem_cons_self q qs
                exact h3 (hd q hqd)
              | cons g0 gt => exact ⟨g0, gt, rfl⟩
            obtain ⟨g0, gt, rfl⟩ := hgcons
            have hqs : qs = gt ++ d := by simpa using congrArg List.tail heq
            refine ih qs hps ⟨gt, d, hqs, ?_, hd, hr⟩
            intro c hc
            exact hg c (List.mem_cons_of_mem g0 hc)
      · simp only [if_neg h2]
        obtain ⟨g, d, heq, hg, hd, hr⟩ := hst
        refine ih (p :: st) hps ⟨p :: g, d, by simp [heq], ?_, hd, hr⟩
        intro c hc
        rcases List.mem_cons.mp hc with hc | hc
        · subst hc
          push_neg at h1
          exact ⟨h1.1, h1.2, h2, hp⟩
        · exact hg c hc

theorem cleanStack_push_good (rooted : Bool) (gs : List (List Char)) :
    ∀ st, (∀ c ∈ gs, c ≠ [] ∧ c ≠ ['.'] ∧ c ≠ dotdot) →
      cleanStack rooted st gs = gs.reverse ++ st := by
  induction gs with
  | nil => intro st _; rfl
  | cons p ps ih =>
    intro st h
    obtain ⟨h1, h2, h3⟩ := h p (List.mem_cons_self p ps)
    simp only [cleanStack, if_neg (not_or.mpr ⟨h1, h2⟩), if_neg h3]
    rw [ih (p :: st) (fun c hc => h c (List.mem_cons_of_mem p hc))]
    simp

theorem cleanStack_dotdots (ds : List (List Char)) :
    ∀ st, (∀ c ∈ ds, c = dotdot) → (∀ c ∈ st, c = dotdot) →
      cleanStack false st ds = ds.reverse ++ st := by
  induction ds with
  | nil => intro st _ _; rfl
  | cons p ps ih =>
    intro st hds hst
    have hp : p = dotdot := hds p (List.mem_cons_self p ps)
    subst hp
    have htail : ∀ c ∈ ps, c = dotdot := fun c hc => hds c (List.mem_cons_of_mem _ hc)
    simp only [cleanStack, if_neg (show ¬(dotdot = [] ∨ dotdot = ['.']) by decide), if_pos rfl]
    cases st with
    | nil =>
      simp only [Bool.false_eq_true, ite_false]
      rw [ih [dotdot] htail (by simp)]
      simp
    | cons q qs =>
      have hq : q = dotdot := hst q (List.mem_cons_self q qs)
      simp only [if_pos hq]
      rw [ih (dotdot :: q :: qs) htail ?_]
      · simp [hq]
      · intro c hc
        rcases List.mem_cons.mp hc with hc | hc
        · exact hc
        · exact hst c (hq ▸ hc)

theorem cleanStack_replay (rooted : Bool) (st : List (List Char)) (h : stackShape rooted st) :
    cleanStack rooted [] st.reverse = st := by
  obtain ⟨g, d, rfl, hg, hd, hr⟩ := h
  rw [List.reverse_append, cleanStack_append]
  have hgood : ∀ c ∈ g.reverse, c ≠ [] ∧ c ≠ ['.'] ∧ c ≠ dotdot := by
    intro c hc
    obtain ⟨h1, h2, h3, -⟩ := hg c (List.mem_reverse.mp hc)
    exact ⟨h1, h2, h3⟩
  cases hrr : rooted with
  | true =>
    rw [hr hrr]
    simp only [List.reverse_nil]
    rw [show cleanStack true [] ([] : List (List Char)) = [] from rfl]
    rw [cleanStack_push_good true g.reverse [] hgood]
    simp
  | false =>
    rw [cleanStack_dotdots d.reverse [] (fun c hc => hd c (List.mem_reverse.mp hc)) (by simp)]
    simp only [List.append_nil, List.reverse_reverse]
    rw [cleanStack_push_good false g.reverse d hgood]
    simp

/-! ## Lemmas: `clean` -/

theorem joinC_head (sep : Char) (x : List Char) (t : List (List Char)) (hx : x ≠ []) :
    (joinC sep (x :: t)).head? = x.head? := by
  cases t with
  | nil => rfl
  | cons y t2 =>
    rw [joinC_cons sep x (y :: t2) (by simp)]
    cases x with
    | nil => exact absurd rfl hx
    | cons ch chs => rfl

theorem stackShape_splitOnC (rooted : Bool) (s : List Char) :
    stackShape rooted (cleanStack rooted [] (splitOnC '/' s)) :=
  cleanStack_shape rooted (splitOnC '/' s) [] (splitOnC_no_sep '/' s) (stackShape_nil rooted)

theorem mem_stack_of_mem_cleanParts (rooted : Bool) (s : List Char) (x : List Char)
    (h : x ∈ cleanParts rooted (splitOnC '/' s)) :
    x ∈ cleanStack rooted [] (splitOnC '/' s) := by
  simpa [cleanParts] using h

theorem cleanL_ne_nil (s : List Char) : cleanL s ≠ [] := by
  cases s with
  | nil => simp [cleanL]
  | cons c cs =>
    by_cases hc : c = '/'
    · simp only [cleanL, if_pos hc]
      cases hcomp : cleanParts true (splitOnC '/' (c :: cs)) with
      | nil => simp
      | cons x t => simp
    · simp only [cleanL, if_neg hc]
      cases hcomp : cleanParts false (splitOnC '/' (c :: cs)) with
      | nil => simp
      | cons x t =>
        have hx : x ≠ [] := by
          have hmem : x ∈ cleanStack false [] (splitOnC '/' (c :: cs)) :=
            mem_stack_of_mem_cleanParts false (c :: cs) x (by rw [hcomp]; simp)
          exact (stackShape_elem false _ (stackShape_splitOnC false (c :: cs)) x hmem).1
        cases t with
        | nil => simpa [joinC] using hx
        | cons y t2 =>
          show joinC '/' (x :: y :: t2) ≠ []
          rw [joinC_cons '/' x (y :: t2) (by simp)]
          cases x with
          | nil => exact absurd rfl hx
          | cons ch chs => simp

theorem cleanL_head_slash (c : Char) (cs : List Char) :
    ((cleanL (c :: cs)).head? = some '/') ↔ c = '/' := by
  by_cases hc : c = '/'
  · simp only [cleanL, if_pos hc]
    cases hcomp : cleanParts true (splitOnC '/' (c :: cs)) with
    | nil => exact iff_of_true rfl hc
    | cons x t => exact iff_of_true rfl hc
  · simp only [cleanL, if_neg hc]
    cases hcomp : cleanParts false (splitOnC '/' (c :: cs)) with
    | nil =>
      refine iff_of_false ?_ hc
      intro h
      have hdot : '.' = '/' := by simpa using h
      exact absurd hdot (by decide)
    | cons x t =>
      refine iff_of_false ?_ hc
      have hmem : x ∈ cleanStack false [] (splitOnC '/' (c :: cs)) :=
        mem_stack_of_mem_cleanParts false (c :: cs) x (by rw [hcomp]; simp)
      obtain ⟨hx, -, hslash⟩ := stackShape_elem false _ (stackShape_splitOnC false (c :: cs)) x hmem
      rw [joinC_head '/' x t hx]
      intro h
      cases x with
      | nil => exact hx rfl
      | cons ch chs =>
        have hch : ch = '/' := by simp at h; exact h
        exact hslash (by simp [hch])

theorem cleanStack_render (rooted : Bool) (c : Char) (cs : List Char)
    (hif : if rooted = true then c = '/' else ¬c = '/') :
    cleanStack rooted [] (splitOnC '/' (cleanL (c :: cs))) =
      cleanStack rooted [] (splitOnC '/' (c :: cs)) := by
  have hshape := stackShape_splitOnC rooted (c :: cs)
  cases rooted with
  | true =>
    have hc : c = '/' := by simpa using hif
    simp only [cleanL, if_pos hc]
    cases hcomp : cleanParts true (splitOnC '/' (c :: cs)) with
    | nil =>
      have hSnil : cleanStack true [] (splitOnC '/' (c :: cs)) = [] := by
        have := congrArg List.reverse hcomp
        simpa [cleanParts] using this
      rw [hSnil]
      rfl
    | cons x t =>
      have hrev : (cleanStack true [] (splitOnC '/' (c :: cs))).reverse = x :: t := by
        simpa [cleanParts] using hcomp
      have hmemS : ∀ e ∈ x :: t, e ∈ cleanStack true [] (splitOnC '/' (c :: cs)) := by
        intro e he
        rw [← List.mem_reverse, hrev]
        exact he
      have hnosep : ∀ e ∈ x :: t, '/' ∉ e := by
        intro e he
        exact (stackShape_elem true _ hshape e (hmemS e he)).2.2
      have hsplit : splitOnC '/' ('/' :: joinC '/' (x :: t)) = [] :: x :: t := by
        have h1 : splitOnC '/' ('/' :: joinC '/' (x :: t)) =
            [] :: splitOnC '/' (joinC '/' (x :: t)) := by
          simp [splitOnC]
        rw [h1, splitOnC_joinC '/' (x :: t) (by simp) hnosep]
      rw [hsplit]
      have hskip : cleanStack true [] ([] :: x :: t) = cleanStack true [] (x :: t) := by
        simp [cleanStack]
      rw [hskip, ← hrev, cleanStack_replay true _ hshape]
  | false =>
    have hc : ¬c = '/' := by simpa using hif
    simp only [cleanL, if_neg hc]
    cases hcomp : cleanParts false (splitOnC '/' (c :: cs)) with
    | nil =>
      have hSnil : cleanStack false [] (splitOnC '/' (c :: cs)) = [] := by
        have := congrArg List.reverse hcomp
        simpa [cleanParts] using this
      rw [hSnil]
      rfl
    | cons x t =>
      have hrev : (cleanStack false [] (splitOnC '/' (c :: cs))).reverse = x :: t := by
        simpa [cleanParts] using hcomp
      have hmemS : ∀ e ∈ x :: t, e ∈ cleanStack false [] (splitOnC '/' (c :: cs)) := by
        intro e he
        rw [← List.mem_reverse, hrev]
        exact he
      have hnosep : ∀ e ∈ x :: t, '/' ∉ e := by
        intro e he
        exact (stackShape_elem false _ hshape e (hmemS e he)).2.2
      rw [splitOnC_joinC '/' (x :: t) (by simp) hnosep]
      rw [← hrev, cleanStack_replay false _ hshape]

theorem cleanL_restart (x y : List Char) (hx : x ≠ []) :
    cleanL (x ++ '/' :: y) = cleanL (cleanL x ++ '/' :: y) := by
  cases x with
  | nil => exact absurd rfl hx
  | cons c cs =>
    cases hL : cleanL (c :: cs) with
    | nil => exact absurd hL (cleanL_ne_nil (c :: cs))
    | cons c2 r2 =>
      have hiff : (c2 = '/') ↔ (c = '/') := by
        have := cleanL_head_slash c cs
        rw [hL] at this
        simpa using this
      have hsplitL : splitOnC '/' ((c :: cs) ++ '/' :: y) =
          splitOnC '/' (c :: cs) ++ splitOnC '/' y := splitOnC_append '/' (c :: cs) y
      have hsplitR : splitOnC '/' ((c2 :: r2) ++ '/' :: y) =
          splitOnC '/' (c2 :: r2) ++ splitOnC '/' y := splitOnC_append '/' (c2 :: r2) y
      by_cases hc : c = '/'
      · have hc2 : c2 = '/' := hiff.mpr hc
        simp only [cleanL, List.cons_append]
        simp only [← List.cons_append, if_pos hc, if_pos hc2]
        simp only [cleanParts, hsplitL, hsplitR]
        rw [cleanStack_append, cleanStack_append]
        have hrender : cleanStack true [] (splitOnC '/' (c2 :: r2)) =
            cleanStack true [] (splitOnC '/' (c :: cs)) := by
          rw [← hL]
          exact cleanStack_render true c cs (by simpa using hc)
        rw [hrender]
      · have hc2 : ¬c2 = '/' := fun h => hc (hiff.mp h)
        simp only [cleanL, List.cons_append]
        simp only [← List.cons_append, if_neg hc, if_neg hc2]
        simp only [cleanParts, hsplitL, hsplitR]
        rw [cleanStack_append, cleanStack_append]
        have hrender : cleanStack false [] (splitOnC '/' (c2 :: r2)) =
            cleanStack false [] (splitOnC '/' (c :: cs)) := by
          rw [← hL]
          exact cleanStack_render false c cs (by simpa using hc)
        rw [hrender]

/-! ## Lemmas: string-level `clean` facts -/

theorem clean_data (s : String) : (clean s).data = cleanL s.data := rfl

theorem clean_ne_empty (s : String) : clean s ≠ "" := by
  intro h
  have hd := congrArg String.data h
  simp only [clean] at hd
  exact cleanL_ne_nil s.data hd

theorem data_eq_nil_iff (s : String) : s.data = [] ↔ s = "" := by
  constructor
  · intro h
    exact String.ext h
  · intro h
    rw [h]

theorem cleanL_rooted (c : Char) (cs : List Char) (hc : c = '/') :
    cleanL (c :: cs) =
      match cleanParts true (splitOnC '/' (c :: cs)) with
      | [] => ['/']
      | comps => '/' :: joinC '/' comps := by
  simp only [cleanL, if_pos hc]

theorem cleanL_unrooted (c : Char) (cs : List Char) (hc : ¬c = '/') :
    cleanL (c :: cs) =
      match cleanParts false (splitOnC '/' (c :: cs)) with
      | [] => ['.']
      | comps => joinC '/' comps := by
  simp only [cleanL, if_neg hc]

theorem cleanL_double_slash (s : List Char) :
    cleanL ('/' :: '/' :: s) = cleanL ('/' :: s) := by
  have h3 : cleanParts true (splitOnC '/' ('/' :: '/' :: s)) =
      cleanParts true (splitOnC '/' ('/' :: s)) := by
    have h1 : splitOnC '/' ('/' :: '/' :: s) = [] :: [] :: splitOnC '/' s := by
      simp [splitOnC]
    have h2 : splitOnC '/' ('/' :: s) = [] :: splitOnC '/' s := by
      simp [splitOnC]
    rw [h1, h2]
    simp [cleanParts, cleanStack]
  rw [cleanL_rooted '/' ('/' :: s) rfl, cleanL_rooted '/' s rfl, h3]

/-! ## Lemmas: `stripCommon` -/

theorem stripCommon_self_append (l m : List (List Char)) :
    stripCommon l (l ++ m) = ([], m) := by
  induction l with
  | nil =>
    cases m with
    | nil => rfl
    | cons x t => rfl
  | cons x xs ih =>
    simp only [List.cons_append, stripCommon, if_pos rfl]
    exact ih

theorem stripCommon_left_mem (a b : List (List Char)) :
    ∀ x ∈ (stripCommon a b).1, x ∈ a := by
  induction a generalizing b with
  | nil =>
    intro x hx
    cases b with
    | nil => simpa [stripCommon] using hx
    | cons y t => simpa [stripCommon] using hx
  | cons z zs ih =>
    intro x hx
    cases b with
    | nil => simpa [stripCommon] using hx
    | cons y t =>
      simp only [stripCommon] at hx
      by_cases h : z = y
      · simp only [if_pos h] at hx
        exact List.mem_cons_of_mem z (ih t x hx)
      · simp only [if_neg h] at hx
        exact hx

/-! ## Lemmas: elements of a cleaned rooted path -/

theorem splitOnC_ne_pair (sep : Char) (s : List Char) (h : s ≠ []) :
    splitOnC sep s ≠ [[]] := by
  cases s with
  | nil => exact absurd rfl h
  | cons c cs =>
    simp only [splitOnC]
    by_cases hc : c = sep
    · simp only [if_pos hc]
      intro he
      have h1 : splitOnC sep cs = [] := by
        have := congrArg List.tail he
        simpa using this
      exact splitOnC_ne_nil sep cs h1
    · simp only [if_neg hc]
      cases hs : splitOnC sep cs with
      | nil => exact absurd hs (splitOnC_ne_nil sep cs)
      | cons x t =>
        intro he
        have h1 : c :: x = [] := by
          have := congrArg (fun l => l.headD ['x']) he
          simpa using this
        simp at h1

theorem splitOnC_head_cons (sep c : Char) (cs : List Char) (h : ¬c = sep) :
    ∃ q qt, splitOnC sep (c :: cs) = (c :: q) :: qt := by
  simp only [splitOnC, if_neg h]
  cases hs : splitOnC sep cs with
  | nil => exact absurd hs (splitOnC_ne_nil sep cs)
  | cons x t => exact ⟨x, t, rfl⟩

theorem cleanL_rooted_no_dotdot (c : Char) (cs : List Char) (hc : c = '/') :
    ∀ e ∈ splitOnC '/' (cleanL (c :: cs)), e ≠ dotdot := by
  simp only [cleanL, if_pos hc]
  cases hcomp : cleanParts true (splitOnC '/' (c :: cs)) with
  | nil =>
    intro e he
    have : e = [] := by
      rcases (by simpa [splitOnC] using he : e = [] ∨ e = []) with h | h <;> exact h
    simp [this, dotdot]
  | cons x t =>
    have hshape := stackShape_splitOnC true (c :: cs)
    have hrev : (cleanStack true [] (splitOnC '/' (c :: cs))).reverse = x :: t := by
      simpa [cleanParts] using hcomp
    have hmemS : ∀ e ∈ x :: t, e ∈ cleanStack true [] (splitOnC '/' (c :: cs)) := by
      intro e he
      rw [← List.mem_reverse, hrev]
      exact he
    have hnosep : ∀ e ∈ x :: t, '/' ∉ e := by
      intro e he
      exact (stackShape_elem true _ hshape e (hmemS e he)).2.2
    have hsplit : splitOnC '/' ('/' :: joinC '/' (x :: t)) = [] :: x :: t := by
      have h1 : splitOnC '/' ('/' :: joinC '/' (x :: t)) =
          [] :: splitOnC '/' (joinC '/' (x :: t)) := by
        simp [splitOnC]
      rw [h1, splitOnC_joinC '/' (x :: t) (by simp) hnosep]
    rw [hsplit]
    intro e he
    rcases List.mem_cons.mp he with he | he
    · simp [he, dotdot]
    · exact stackShape_rooted_no_dotdot _ hshape e (hmemS e he)

/-! ## Lemmas: `rel` on absolute paths -/

theorem isAbs_data (s : String) : isAbs s = true ↔ ∃ t, s.data = '/' :: t := by
  simp only [isAbs, strHasPre]
  cases hd : s.data with
  | nil => simp [List.isPrefixOf]
  | cons c cs =>
    simp only [List.isPrefixOf, Bool.and_true, beq_iff_eq, List.cons.injEq]
    constructor
    · intro h
      exact ⟨cs, h.symm, rfl⟩
    · rintro ⟨t, ht, -⟩
      exact ht.symm

theorem clean_isAbs (s : String) (h : isAbs s = true) : isAbs (clean s) = true := by
  obtain ⟨t, ht⟩ := (isAbs_data s).mp h
  rw [isAbs_data]
  have hd : (clean s).data = cleanL ('/' :: t) := by rw [clean_data, ht]
  cases hL : (clean s).data with
  | nil => exact absurd (String.ext hL) (clean_ne_empty s)
  | cons c2 r2 =>
    have hhead : c2 = '/' := by
      have h1 := (cleanL_head_slash '/' t).mpr rfl
      rw [← hd, hL] at h1
      simpa using h1
    exact ⟨r2, by rw [hhead]⟩

theorem rel_ok_of_abs (root dir : String) (hroot : isAbs root = true)
    (hdir : isAbs dir = true) : ∃ v, rel root dir = .ok v := by
  simp only [rel]
  by_cases heq : clean dir = clean root
  · simp only [if_pos heq]
    exact ⟨".", rfl⟩
  · simp only [if_neg heq]
    have hbAbs : isAbs (clean root) = true := clean_isAbs root hroot
    have htAbs : isAbs (clean dir) = true := clean_isAbs dir hdir
    have hbne : ¬clean root = "." := by
      intro h
      rw [h] at hbAbs
      exact absurd hbAbs (by decide)
    simp only [if_neg hbne]
    have hslash : ¬(isAbs (clean root) ≠ isAbs (clean dir)) := by
      rw [hbAbs, htAbs]
      exact fun h => h rfl
    simp only [if_neg hslash]
    have hnodot : ∀ e ∈ splitOnC '/' (clean root).data, e ≠ dotdot := by
      obtain ⟨t, ht⟩ := (isAbs_data root).mp hroot
      rw [clean_data, ht]
      exact cleanL_rooted_no_dotdot '/' t rfl
    set p := stripCommon (splitOnC '/' (clean root).data) (splitOnC '/' (clean dir).data) with hp
    have hhead : ¬(if p.1 = [[]] then [] else p.1).headD [] = dotdot := by
      by_cases h1 : p.1 = [[]]
      · simp [h1, dotdot]
      · simp only [if_neg h1]
        cases hc : p.1 with
        | nil => simp [dotdot]
        | cons x t =>
          have hx : x ∈ splitOnC '/' (clean root).data := by
            have hmem : x ∈ p.1 := by
              rw [hc]
              exact List.mem_cons_self x t
            rw [hp] at hmem
            exact stripCommon_left_mem (splitOnC '/' (clean root).data)
              (splitOnC '/' (clean dir).data) x hmem
          simpa using hnodot x hx
    simp only [if_neg hhead]
    by_cases hbs : (if p.1 = [[]] then [] else p.1) = []
    · simp only [if_pos hbs]
      exact ⟨_, rfl⟩
    · simp only [if_neg hbs]
      exact ⟨_, rfl⟩

theorem abs_head_ne_of_not (p2 : String) (h3 : isAbs p2 = false) (c : Char)
    (cs : List Char) (hd : p2.data = c :: cs) : ¬c = '/' := by
  intro hc
  have : isAbs p2 = true := (isAbs_data p2).mpr ⟨cs, by rw [hd, hc]⟩
  rw [this] at h3
  exact absurd h3 (by decide)

theorem rel_append (r p2 : String) (h0 : clean r = r) (h1 : isAbs r = true)
    (h2 : p2 ≠ "") (h3 : isAbs p2 = false)
    (h4 : clean (String.mk (r.data ++ '/' :: p2.data)) = String.mk (r.data ++ '/' :: p2.data)) :
    rel r (String.mk (r.data ++ '/' :: p2.data)) = .ok p2 := by
  have hp2ne : p2.data ≠ [] := fun h => h2 ((data_eq_nil_iff p2).mp h)
  obtain ⟨rs, hrs⟩ := (isAbs_data r).mp h1
  have htdata : (String.mk (r.data ++ '/' :: p2.data)).data = r.data ++ '/' :: p2.data := rfl
  have hne : ¬String.mk (r.data ++ '/' :: p2.data) = r := by
    intro h
    have hlen := congrArg (fun s => s.data.length) h
    simp only [htdata, List.length_append, List.length_cons] at hlen
    omega
  have hrne : ¬r = "." := by
    intro h
    rw [h] at hrs
    simp at hrs
  have htAbs : isAbs (String.mk (r.data ++ '/' :: p2.data)) = true := by
    refine (isAbs_data _).mpr ⟨rs ++ '/' :: p2.data, ?_⟩
    rw [htdata, hrs]
    rfl
  simp only [rel, h4, h0]
  rw [if_neg hne, if_neg hrne]
  have hslash : ¬(isAbs r ≠ isAbs (String.mk (r.data ++ '/' :: p2.data))) := by
    rw [h1, htAbs]
    exact fun h => h rfl
  rw [if_neg hslash]
  have hsplit : splitOnC '/' (String.mk (r.data ++ '/' :: p2.data)).data =
      splitOnC '/' r.data ++ splitOnC '/' p2.data := by
    rw [htdata]
    exact splitOnC_append '/' r.data p2.data
  rw [hsplit, stripCommon_self_append]
  have hts : ¬splitOnC '/' p2.data = [[]] := splitOnC_ne_pair '/' p2.data hp2ne
  simp only [if_neg hts]
  have hbs : ¬([] : List (List Char)) = [[]] := by simp
  simp only [if_neg hbs]
  simp [joinC_splitOnC, dotdot]

theorem rel_slash (p2 : String) (h2 : p2 ≠ "") (h3 : isAbs p2 = false)
    (h4 : clean (String.mk ('/' :: p2.data)) = String.mk ('/' :: p2.data)) :
    rel "/" (String.mk ('/' :: p2.data)) = .ok p2 := by
  have hp2ne : p2.data ≠ [] := fun h => h2 ((data_eq_nil_iff p2).mp h)
  obtain ⟨c, cs, hd⟩ : ∃ c cs, p2.data = c :: cs := by
    cases hcs : p2.data with
    | nil => exact absurd hcs hp2ne
    | cons a b => exact ⟨a, b, rfl⟩
  have hcslash : ¬c = '/' := abs_head_ne_of_not p2 h3 c cs hd
  have hclean : clean "/" = "/" := by decide
  have htdata : (String.mk ('/' :: p2.data)).data = '/' :: p2.data := rfl
  have hne : ¬String.mk ('/' :: p2.data) = "/" := by
    intro h
    have hdata : '/' :: p2.data = ['/'] := congrArg String.data h
    have hnil : p2.data = [] := by simpa using hdata
    exact hp2ne hnil
  have htAbs : isAbs (String.mk ('/' :: p2.data)) = true :=
    (isAbs_data _).mpr ⟨p2.data, rfl⟩
  simp only [rel, h4, hclean]
  rw [if_neg hne]
  rw [if_neg (show ¬("/" : String) = "." by decide)]
  have hslash : ¬(isAbs "/" ≠ isAbs (String.mk ('/' :: p2.data))) := by
    rw [htAbs]
    rw [show isAbs "/" = true by decide]
    exact fun h => h rfl
  rw [if_neg hslash]
  obtain ⟨q, qt, hsplitp⟩ := splitOnC_head_cons '/' c cs hcslash
  have hsplitT : splitOnC '/' (String.mk ('/' :: p2.data)).data =
      [] :: (c :: q) :: qt := by
    rw [htdata]
    have hstep : splitOnC '/' ('/' :: p2.data) = [] :: splitOnC '/' p2.data := by
      simp [splitOnC]
    rw [hstep, hd, hsplitp]
  have hsplitB : splitOnC '/' ("/" : String).data = [[], []] := by decide
  rw [hsplitT, hsplitB]
  have hstrip : stripCommon [[], []] ([] :: (c :: q) :: qt) =
      ([[]], (c :: q) :: qt) := by
    simp [stripCommon]
  rw [hstrip]
  have hts : ¬((c :: q) :: qt) = [[]] := by simp
  simp only [if_pos rfl, if_neg hts]
  rw [← hsplitp, ← hd]
  simp [joinC_splitOnC, dotdot]

theorem goJoin_cons_ne (a : String) (l : List String) (ha : ¬a = "") :
    goJoin (a :: l) = clean (String.mk (joinC '/' ((a :: l).map (fun e => e.data)))) := by
  simp only [goJoin, List.dropWhile_cons]
  simp [ha]

/-! ## Claims C2 and C6: `StripRootDir` -/

/-- C2 (counterexample): `StripRootDir` does not fault on every path that
fails to lie under the current root.  With root `/a`, the path `/ab` is
absolute, does not lie under `/a`, yet `StripRootDir` returns normally
(with the value `/../ab`), because the code only checks
`strings.HasPrefix`. -/
theorem stripRootDir_returns_outside_root :
    isAbs "/ab" = true ∧ isUnderRoot "/a" "/ab" = false ∧
      StripRootDir "/a" "/ab" = some "/../ab" := by
  decide

/-- C2 (amended): for every non-empty current root, `StripRootDir p`
faults (panics) exactly when `p` is not absolute or `p` does not have the
root as a literal string prefix; whenever `p` is absolute and has the root
as a string prefix it returns normally. -/
theorem stripRootDir_faults_iff (root dir : String) (hroot : root ≠ "") :
    StripRootDir root dir = none ↔ (isAbs dir = false ∨ strHasPre root dir = false) := by
  by_cases h1 : isAbs dir = false
  · refine iff_of_true ?_ (Or.inl h1)
    simp [StripRootDir, h1]
  · have h1' : isAbs dir = true := by revert h1; cases isAbs dir <;> simp
    by_cases h2 : strHasPre root dir = false
    · refine iff_of_true ?_ (Or.inr h2)
      simp [StripRootDir, h1, h2]
    · have h2' : strHasPre root dir = true := by revert h2; cases strHasPre root dir <;> simp
      have habsRoot : isAbs root = true := by
        obtain ⟨ds, hds⟩ := (isAbs_data dir).mp h1'
        have hpre : root.data.isPrefixOf dir.data = true := h2'
        obtain ⟨c, cs, hcs⟩ : ∃ c cs, root.data = c :: cs := by
          cases hrt : root.data with
          | nil => exact absurd ((data_eq_nil_iff root).mp hrt) hroot
          | cons a b => exact ⟨a, b, rfl⟩
        rw [hcs, hds] at hpre
        simp only [List.isPrefixOf] at hpre
        have hc : c = '/' := by
          have hand := (Bool.and_eq_true _ _).mp hpre
          simpa using hand.1
        exact (isAbs_data root).mpr ⟨cs, by rw [hcs, hc]⟩
      obtain ⟨v, hv⟩ := rel_ok_of_abs root dir habsRoot h1'
      refine iff_of_false ?_ ?_
      · simp [StripRootDir, h1, h2, hv]
      · simp [h1', h2']

/-- C2 (witness): the amended equivalence applied at root `/x`. -/
theorem stripRootDir_faults_iff_witness :
    ("/x" : String) ≠ "" ∧
      (StripRootDir "/x" "rel" = none ↔ (isAbs "rel" = false ∨ strHasPre "/x" "rel" = false)) :=
  ⟨by decide, stripRootDir_faults_iff "/x" "rel" (by decide)⟩

/-- C6 (counterexample): the round-trip fails when the relative path
cleans away.  With root `/` and `p2 = ../a`, `join(root, p2) = /a` is a
cleaned absolute path lying under the root, yet `StripRoot` returns `/a`,
not `/../a`. -/
theorem stripRootDir_roundtrip_cex :
    ("../a" : String) ≠ "" ∧ isAbs "../a" = false ∧
      isAbs (goJoin ["/", "../a"]) = true ∧
      clean (goJoin ["/", "../a"]) = goJoin ["/", "../a"] ∧
      isUnderRoot "/" (goJoin ["/", "../a"]) = true ∧
      StripRootDir "/" (goJoin ["/", "../a"]) ≠ some ("/" ++ "../a") := by
  decide

/-- C6 (amended): for every cleaned absolute root `r` and non-empty
relative path `p2` such that `join(r, p2)` literally extends the root
(`r + "/" + p2`, or `"/" + p2` when the root is `/`),
`StripRootDir (join r p2)` returns exactly `/` followed by `p2`. -/
theorem stripRootDir_roundtrip (r p2 : String) (h0 : clean r = r) (h1 : isAbs r = true)
    (h2 : p2 ≠ "") (h3 : isAbs p2 = false)
    (h4 : goJoin [r, p2] = if r = "/" then "/" ++ p2 else r ++ "/" ++ p2) :
    StripRootDir r (goJoin [r, p2]) = some ("/" ++ p2) := by
  have hrne : ¬r = "" := by
    intro h
    rw [h] at h1
    exact absurd h1 (by decide)
  have hjoin : goJoin [r, p2] = clean (String.mk (r.data ++ '/' :: p2.data)) := by
    rw [goJoin_cons_ne r [p2] hrne]
    rfl
  by_cases hr : r = "/"
  · rw [hr] at h4 hjoin ⊢
    rw [if_pos rfl] at h4
    have hdata : ("/" ++ p2).data = '/' :: p2.data := by
      rw [String.data_append]
      rfl
    have hjoin2 : goJoin ["/", p2] = String.mk ('/' :: p2.data) := by
      rw [h4]
      exact String.ext hdata
    have h4' : clean (String.mk ('/' :: p2.data)) = String.mk ('/' :: p2.data) := by
      have hdd : clean (String.mk ('/' :: p2.data)) =
          clean (String.mk ('/' :: '/' :: p2.data)) := by
        apply String.ext
        simp only [clean]
        exact (cleanL_double_slash p2.data).symm
      have hj3 : clean (String.mk ('/' :: '/' :: p2.data)) = String.mk ('/' :: p2.data) := by
        have hsame : clean (String.mk ('/' :: '/' :: p2.data)) =
            clean (String.mk (("/" : String).data ++ '/' :: p2.data)) := rfl
        rw [hsame, ← hjoin]
        exact hjoin2
      rw [hdd, hj3]
    rw [hjoin2]
    have habs : isAbs (String.mk ('/' :: p2.data)) = true :=
      (isAbs_data _).mpr ⟨p2.data, rfl⟩
    have hpre : strHasPre "/" (String.mk ('/' :: p2.data)) = true := by
      simp [strHasPre, List.isPrefixOf]
    simp only [StripRootDir, habs, hpre, rel_slash p2 h2 h3 h4']
    simp
  · rw [if_neg hr] at h4
    have hdata : (r ++ "/" ++ p2).data = r.data ++ '/' :: p2.data := by
      rw [String.data_append, String.data_append]
      simp
    have hjoin2 : goJoin [r, p2] = String.mk (r.data ++ '/' :: p2.data) := by
      rw [h4]
      exact String.ext hdata
    have h4' : clean (String.mk (r.data ++ '/' :: p2.data)) =
        String.mk (r.data ++ '/' :: p2.data) := by
      rw [← hjoin]
      exact hjoin2
    obtain ⟨rs, hrs⟩ := (isAbs_data r).mp h1
    have habs : isAbs (String.mk (r.data ++ '/' :: p2.data)) = true := by
      refine (isAbs_data _).mpr ⟨rs ++ '/' :: p2.data, ?_⟩
      show r.data ++ '/' :: p2.data = '/' :: (rs ++ '/' :: p2.data)
      rw [hrs]
      rfl
    have hpre : strHasPre r (String.mk (r.data ++ '/' :: p2.data)) = true := by
      simp only [strHasPre]
      rw [List.isPrefixOf_iff_prefix]
      exact List.prefix_append r.data ('/' :: p2.data)
    rw [hjoin2]
    simp only [StripRootDir, habs, hpre, rel_append r p2 h0 h1 h2 h3 h4']
    simp

/-- C6 (witness): the amended round-trip at root `/x` and `p2 = a/b`. -/
theorem stripRootDir_roundtrip_witness :
    clean "/x" = "/x" ∧ isAbs "/x" = true ∧ ("a/b" : String) ≠ "" ∧
      isAbs "a/b" = false ∧
      (goJoin ["/x", "a/b"] = if ("/x" : String) = "/" then "/" ++ "a/b" else "/x" ++ "/" ++ "a/b") ∧
      StripRootDir "/x" (goJoin ["/x", "a/b"]) = some ("/" ++ "a/b") :=
  ⟨by decide, by decide, by decide, by decide, by decide,
    stripRootDir_roundtrip "/x" "a/b" (by decide) (by decide) (by decide) (by decide) (by decide)⟩

/-! ## Lemmas: `goJoin` and the home glob -/

theorem goJoin_home_glob (root s : String) :
    goJoin [root, "/home", "*", s] = goJoin [goJoin [root, "/home"], "*", s] := by
  by_cases hr : root = ""
  · subst hr
    have hA : goJoin [("" : String), "/home"] = "/home" := by decide
    rw [hA]
    rfl
  · have hA : goJoin [root, "/home"] = clean (String.mk (root.data ++ '/' :: "/home".data)) := by
      rw [goJoin_cons_ne root ["/home"] hr]
      rfl
    have hAne : ¬goJoin [root, "/home"] = "" := by
      rw [hA]
      exact clean_ne_empty _
    have hL : goJoin [root, "/home", "*", s] =
        clean (String.mk (root.data ++ '/' :: ("/home".data ++ '/' :: ('*' :: '/' :: s.data)))) := by
      rw [goJoin_cons_ne root ["/home", "*", s] hr]
      rfl
    have hR : goJoin [goJoin [root, "/home"], "*", s] =
        clean (String.mk ((goJoin [root, "/home"]).data ++ '/' :: ('*' :: '/' :: s.data))) := by
      rw [goJoin_cons_ne (goJoin [root, "/home"]) ["*", s] hAne]
      rfl
    rw [hL, hR, hA]
    apply String.ext
    simp only [clean]
    have hassoc : root.data ++ '/' :: ("/home".data ++ '/' :: ('*' :: '/' :: s.data)) =
        (root.data ++ '/' :: "/home".data) ++ '/' :: ('*' :: '/' :: s.data) := by
      simp
    rw [hassoc]
    exact cleanL_restart (root.data ++ '/' :: "/home".data) ('*' :: '/' :: s.data) (by simp)

/-- The overridden environment makes the probe resolve to the default
candidate (whether or not the special-distro shortcut fires). -/
theorem snapMountDirProbe_withSnapDirOk (env : Env) (r : String) :
    snapMountDirProbe (withSnapDirOk env r) r = .ok (goJoin [r, DefaultSnapMountDir]) := by
  simp only [snapMountDirProbe]
  by_cases hs : DistroLike (withSnapDirOk env r) specialDefaultDirDistros = true
  · simp [hs]
  · simp [hs, withSnapDirOk]

/-! ## Claim C3: the mount-directory probe -/

/-- C3: with no special-distro shortcut (and outside a base snap), the
probe on `join(r, "/snap")` yields: the default candidate when it is a
plain directory; the alternate `join(r, "/var/lib/snapd/snap")` when it
does not exist; the alternate when it is a symlink whose literal target is
one of the three accepted textual forms of the alternate; and an error for
a symlink to any other target or for a stat error other than
not-exist. -/
theorem snapMountDirProbe_outcomes (env : Env) (r p : String)
    (hbase : isInsideBaseSnap env = false)
    (hspecial : DistroLike env specialDefaultDirDistros = false) :
    (env.lstat (goJoin [r, DefaultSnapMountDir]) = .entry .dir →
        snapMountDirProbe env r = .ok (goJoin [r, DefaultSnapMountDir])) ∧
      (env.lstat (goJoin [r, DefaultSnapMountDir]) = .errNotExist →
        snapMountDirProbe env r = .ok (goJoin [r, AltSnapMountDir])) ∧
      (env.lstat (goJoin [r, DefaultSnapMountDir]) = .entry .symlink →
        env.readlink (goJoin [r, DefaultSnapMountDir]) = .ok p →
        (p = AltSnapMountDir ∨ p = AltSnapMountDir.drop 1 ∨ p = goJoin [r, AltSnapMountDir]) →
        snapMountDirProbe env r = .ok (goJoin [r, AltSnapMountDir])) ∧
      (env.lstat (goJoin [r, DefaultSnapMountDir]) = .entry .symlink →
        env.readlink (goJoin [r, DefaultSnapMountDir]) = .ok p →
        ¬(p = AltSnapMountDir ∨ p = AltSnapMountDir.drop 1 ∨ p = goJoin [r, AltSnapMountDir]) →
        ∃ msg, snapMountDirProbe env r = .error msg) ∧
      (∀ m, env.lstat (goJoin [r, DefaultSnapMountDir]) = .errOther m →
        ∃ msg, snapMountDirProbe env r = .error msg) := by
  refine ⟨?_, ?_, ?_, ?_, ?_⟩
  · intro hl
    simp [snapMountDirProbe, hspecial, hl]
  · intro hl
    simp [snapMountDirProbe, hspecial, hl]
  · intro hl hrl hforms
    have hcond : ¬(p ≠ AltSnapMountDir ∧ p ≠ AltSnapMountDir.drop 1 ∧
        p ≠ goJoin [r, AltSnapMountDir]) := by
      rcases hforms with h | h | h <;> simp [h]
    simp [snapMountDirProbe, hspecial, hl, hrl, hcond]
  · intro hl hrl hforms
    have hcond : p ≠ AltSnapMountDir ∧ p ≠ AltSnapMountDir.drop 1 ∧
        p ≠ goJoin [r, AltSnapMountDir] := by
      push_neg at hforms
      exact ⟨hforms.1, hforms.2.1, hforms.2.2⟩
    exact ⟨goJoin [r, DefaultSnapMountDir] ++ " must be a symbolic link to " ++ AltSnapMountDir,
      by simp [snapMountDirProbe, hspecial, hl, hrl, hcond]⟩
  · intro m hl
    exact ⟨"cannot stat " ++ goJoin [r, DefaultSnapMountDir] ++ ": " ++ m,
      by simp [snapMountDirProbe, hspecial, hl]⟩

/-- C3 (witness): in the all-directories environment the probe resolves
`/snap` for root `/`. -/
theorem snapMountDirProbe_outcomes_witness :
    snapMountDirProbe envDirOk "/" = .ok "/snap" :=
  (snapMountDirProbe_outcomes envDirOk "/" "unused" rfl rfl).1 rfl

/-! ## Claim C5: `SetSnapHomeDirs` on a concrete list -/

/-- C5: under root `/x`, `SetSnapHomeDirs "/a,/b"` returns exactly
`["/x/a", "/x/b", "/x/home"]` (user entries in input order, the default
root-qualified `/home` appended last), and the standard-variant globs are
exactly `["/x/a/*/snap", "/x/b/*/snap", "/x/home/*/snap"]` in the same
order. -/
theorem setSnapHomeDirs_concrete :
    (SetSnapHomeDirs "/x" "/a,/b").1 = ["/x/a", "/x/b", "/x/home"] ∧
      (SetSnapHomeDirs "/x" "/a,/b").2.1 =
        ["/x/a/*/snap", "/x/b/*/snap", "/x/home/*/snap"] := by
  decide

/-! ## Claim C7: home-directory invariants -/

/-- C7: after any `SetSnapHomeDirs` call the home-directory list is
non-empty and contains the root-qualified `/home` entry, the two glob
lists are each the image of the home list under the corresponding glob
derivation (one glob per home directory, same order), and the getter
reports the one-element root-qualified `/home` fallback instead of an
empty collection. -/
theorem setSnapHomeDirs_invariant (root csv : String) :
    (SetSnapHomeDirs root csv).1 ≠ [] ∧
      goJoin [root, "/home"] ∈ (SetSnapHomeDirs root csv).1 ∧
      (SetSnapHomeDirs root csv).2.1 =
        (SetSnapHomeDirs root csv).1.map (fun h => goJoin [h, "*", UserHomeSnapDir]) ∧
      (SetSnapHomeDirs root csv).2.2 =
        (SetSnapHomeDirs root csv).1.map (fun h => goJoin [h, "*", HiddenSnapDataHomeDir]) ∧
      (∀ st : DirsState, st.snapHomeDirs = [] →
        SnapHomeDirs st = [goJoin [st.GlobalRootDir, "/home"]]) := by
  have hgetter : ∀ st : DirsState, st.snapHomeDirs = [] →
      SnapHomeDirs st = [goJoin [st.GlobalRootDir, "/home"]] := by
    intro st hst
    simp [SnapHomeDirs, hst]
  simp only [SetSnapHomeDirs]
  by_cases hcont : (snapHomeUserDirs root csv).contains (goJoin [root, "/home"]) = true
  · simp only [if_pos hcont]
    refine ⟨?_, ?_, trivial, trivial, hgetter⟩
    · intro hnil
      rw [hnil] at hcont
      simp [List.contains] at hcont
    · simpa using hcont
  · simp only [if_neg hcont]
    refine ⟨by simp, by simp, ?_, ?_, hgetter⟩
    · rw [List.map_append]
      simp only [List.map_cons, List.map_nil]
      rw [goJoin_home_glob root UserHomeSnapDir]
    · rw [List.map_append]
      simp only [List.map_cons, List.map_nil]
      rw [goJoin_home_glob root HiddenSnapDataHomeDir]

/-- C7 (witness): the invariant applied at root `/x` with empty input,
and the getter fallback on the zero-valued state. -/
theorem setSnapHomeDirs_invariant_witness :
    (SetSnapHomeDirs "/x" "").1 ≠ [] ∧ SnapHomeDirs {} = ["/home"] := by
  have h := setSnapHomeDirs_invariant "/x" ""
  refine ⟨h.1, ?_⟩
  have h2 := h.2.2.2.2 {} rfl
  simpa using h2

/-! ## Claim C8: the library/executable directory -/

/-- C8 (counterexample): when the default `usr/lib/snapd` is absent but
the alternate `usr/libexec/snapd` is also absent, the directory is not
downgraded to the alternate: the published value stays the (missing)
default.  In `envDirOk` every `os.Stat` reports not-exist. -/
theorem distroLibExecDir_cex :
    envDirOk.stat (goJoin ["/", DefaultDistroLibexecDir]) = .errNotExist ∧
      envDirOk.stat (goJoin ["/", AltDistroLibexecDir]) = .errNotExist ∧
      (SetRootDir envDirOk "/" {}).1.DistroLibExecDir = "/usr/lib/snapd" ∧
      ("/usr/lib/snapd" : String) ≠ "/usr/libexec/snapd" := by
  refine ⟨rfl, rfl, rfl, by decide⟩

/-- C8 (amended): on every root change the library/executable directory is
the root-joined default location, except that it falls back to the
root-joined alternate location exactly when the default is absent on disk
(stat not-exist) and the alternate stat succeeds; the decision is a pure
function of the two stat responses taken during the root change. -/
theorem distroLibExecDir_two_step (env : Env) (r : String) (s : DirsState) :
    (SetRootDir env r s).1.DistroLibExecDir =
      (if env.stat (goJoin [if r = "" then "/" else r, DefaultDistroLibexecDir]) =
            StatResult.errNotExist ∧
          env.stat (goJoin [if r = "" then "/" else r, AltDistroLibexecDir]) = StatResult.ok
        then goJoin [if r = "" then "/" else r, AltDistroLibexecDir]
        else goJoin [if r = "" then "/" else r, DefaultDistroLibexecDir]) := by
  have hproj : (SetRootDir env r s).1.DistroLibExecDir =
      (if env.stat (goJoin [if r = "" then "/" else r, DefaultDistroLibexecDir]) =
            StatResult.errNotExist then
        (if env.stat (goJoin [if r = "" then "/" else r, AltDistroLibexecDir]) =
              StatResult.ok then
          goJoin [if r = "" then "/" else r, AltDistroLibexecDir]
        else goJoin [if r = "" then "/" else r, DefaultDistroLibexecDir])
      else goJoin [if r = "" then "/" else r, DefaultDistroLibexecDir]) := rfl
  rw [hproj]
  by_cases h1 : env.stat (goJoin [if r = "" then "/" else r, DefaultDistroLibexecDir]) =
      StatResult.errNotExist
  · by_cases h2 : env.stat (goJoin [if r = "" then "/" else r, AltDistroLibexecDir]) =
        StatResult.ok
    · simp [h1, h2]
    · simp [h1, h2]
  · simp [h1]

/-! ## Claim C9: the root directory itself -/

/-- C9: after `SetRootDir r` with non-empty `r` the global root equals
`r`; `SetRootDir ""` sets it to `/`; the root is never empty after any
`SetRootDir` call. -/
theorem setRootDir_globalRootDir (env : Env) (s : DirsState) (r : String) (hr : r ≠ "") :
    (SetRootDir env r s).1.GlobalRootDir = r ∧
      (SetRootDir env "" s).1.GlobalRootDir = "/" ∧
      (∀ r2 : String, (SetRootDir env r2 s).1.GlobalRootDir ≠ "") := by
  refine ⟨?_, rfl, ?_⟩
  · show (if r = "" then "/" else r) = r
    rw [if_neg hr]
  · intro r2
    show (if r2 = "" then "/" else r2) ≠ ""
    by_cases h : r2 = ""
    · rw [if_pos h]
      decide
    · rw [if_neg h]
      exact h

/-- C9 (witness): the root observed after `SetRootDir "/x"`. -/
theorem setRootDir_globalRootDir_witness :
    ("/x" : String) ≠ "" ∧ (SetRootDir envDirOk "/x" {}).1.GlobalRootDir = "/x" :=
  ⟨by decide, (setRootDir_globalRootDir envDirOk {} "/x" (by decide)).1⟩

/-! ## Claim C10: the unresolved placeholder is not absolute -/

/-- C10: when the probe fails (outside a base snap), the published mount
directory is the literal `mount-dir-is-unset`, which is not an absolute
path, and the mount-dir-derived `SnapBinariesDir` inherits it as the
relative string `mount-dir-is-unset/bin`. -/
theorem setRootDir_placeholder_relative (env : Env) (r : String) (s : DirsState) (e : String)
    (hbase : isInsideBaseSnap env = false)
    (hfail : snapMountDirProbe env (if r = "" then "/" else r) = .error e) :
    (SetRootDir env r s).1.SnapMountDir = snapMountDirUnresolvedPlaceholder ∧
      snapMountDirUnresolvedPlaceholder = "mount-dir-is-unset" ∧
      isAbs (SetRootDir env r s).1.SnapMountDir = false ∧
      (SetRootDir env r s).1.SnapBinariesDir = "mount-dir-is-unset/bin" ∧
      isAbs (SetRootDir env r s).1.SnapBinariesDir = false := by
  have h1 : (SetRootDir env r s).1.SnapMountDir = snapMountDirUnresolvedPlaceholder := by
    simp only [SetRootDir, hbase, hfail]
    simp
  have h2 : (SetRootDir env r s).1.SnapBinariesDir = "mount-dir-is-unset/bin" := by
    simp only [SetRootDir, hbase, hfail]
    simp
    decide
  refine ⟨h1, rfl, ?_, h2, ?_⟩
  · rw [h1]
    decide
  · rw [h2]
    decide

/-- C10 (witness): the placeholder published for root `/` in the
probe-failing environment. -/
theorem setRootDir_placeholder_relative_witness :
    (SetRootDir envProbeFail "/" {}).1.SnapMountDir = snapMountDirUnresolvedPlaceholder ∧
      (SetRootDir envProbeFail "/" {}).1.SnapBinariesDir = "mount-dir-is-unset/bin" := by
  have h := setRootDir_placeholder_relative envProbeFail "/" {}
    "internal error: unresolved snap mount dir" rfl rfl
  exact ⟨h.1, h.2.2.2.1⟩

/-! ## Claim C1: callbacks versus the writable-mount variables -/

/-- C1 (code bug): `SetRootDir` invokes the callbacks synchronously in
registration order with the new root, and the path variables are already
recomputed when they run — except that `WritableMountPath` and
`WritableUbuntuCoreSystemDataDir` are assigned only after the callback
loop, contradicting the code's own comment that the callbacks are called
last so they can reference the package variables.  A callback registered
before `SetRootDir "/newroot"` (on classic, from the zero state) observes
the stale `WritableMountPath` value. -/
theorem setRootDir_callbacks_stale_writable :
    (SetRootDir envDirOk "/newroot" (AddRootDirCallback 1 (AddRootDirCallback 0 {}))).2.map
        CallbackEvent.cb = [0, 1] ∧
      (SetRootDir envDirOk "/newroot" (AddRootDirCallback 1 (AddRootDirCallback 0 {}))).2.map
        CallbackEvent.arg = ["/newroot", "/newroot"] ∧
      (SetRootDir envDirOk "/newroot" (AddRootDirCallback 1 (AddRootDirCallback 0 {}))).2.map
        (fun ev => ev.observed.GlobalRootDir) = ["/newroot", "/newroot"] ∧
      (SetRootDir envDirOk "/newroot" (AddRootDirCallback 1 (AddRootDirCallback 0 {}))).2.map
        (fun ev => ev.observed.SnapDataDir) = ["/newroot/var/snap", "/newroot/var/snap"] ∧
      (SetRootDir envDirOk "/newroot" (AddRootDirCallback 1 (AddRootDirCallback 0 {}))).2.map
        (fun ev => ev.observed.WritableMountPath) = ["", ""] ∧
      (SetRootDir envDirOk "/newroot" (AddRootDirCallback 1 (AddRootDirCallback 0 {}))).1.WritableMountPath =
        "/newroot" ∧
      ("" : String) ≠ "/newroot" := by
  refine ⟨rfl, rfl, rfl, rfl, rfl, rfl, by decide⟩

/-! ## Claim C4: probe failure degrades gracefully -/

/-- C4: when the probe fails during `SetRootDir` (outside a base snap),
the mount directory is set to the placeholder, the wrapped error is
recorded and queryable via `SnapMountDirDetectionOutcome` (which is `none`
when the probe succeeds, as under the directory-forcing override), and the
resulting state agrees with the probe-succeeding state on every other
field: recomputation completes, no entry is left unset, and the root
change is not aborted. -/
theorem setRootDir_probe_failure (env : Env) (r : String) (s : DirsState) (e : String)
    (hbase : isInsideBaseSnap env = false)
    (hfail : snapMountDirProbe env (if r = "" then "/" else r) = .error e) :
    (SetRootDir env r s).1.SnapMountDir = snapMountDirUnresolvedPlaceholder ∧
      SnapMountDirDetectionOutcome (SetRootDir env r s).1 =
        some ("cannot resolve snap mount directory: " ++ e) ∧
      SnapMountDirDetectionOutcome
        (SetRootDir (withSnapDirOk env (if r = "" then "/" else r)) r s).1 = none ∧
      (SetRootDir env r s).1 =
        { (SetRootDir (withSnapDirOk env (if r = "" then "/" else r)) r s).1 with
            SnapMountDir := snapMountDirUnresolvedPlaceholder
            snapMountDirDetectionError := some ("cannot resolve snap mount directory: " ++ e)
            SnapBinariesDir := goJoin [snapMountDirUnresolvedPlaceholder, "bin"] } := by
  have hbase2 : isInsideBaseSnap (withSnapDirOk env (if r = "" then "/" else r)) = false := hbase
  have hok : snapMountDirProbe (withSnapDirOk env (if r = "" then "/" else r))
      (if r = "" then "/" else r) =
      .ok (goJoin [if r = "" then "/" else r, DefaultSnapMountDir]) :=
    snapMountDirProbe_withSnapDirOk env (if r = "" then "/" else r)
  refine ⟨?_, ?_, ?_, ?_⟩
  · simp only [SetRootDir, hbase, hfail]
    simp
  · simp only [SnapMountDirDetectionOutcome, SetRootDir, hbase, hfail]
    simp
  · simp only [SnapMountDirDetectionOutcome, SetRootDir, hbase2, hok]
    simp
  · simp only [SetRootDir, hbase, hbase2, hfail, hok]
    simp [withSnapDirOk]

/-- C4 (witness): the degradation observed concretely for root `/` in the
probe-failing environment. -/
theorem setRootDir_probe_failure_witness :
    (SetRootDir envProbeFail "/" {}).1.SnapMountDir = snapMountDirUnresolvedPlaceholder ∧
      SnapMountDirDetectionOutcome (SetRootDir envProbeFail "/" {}).1 =
        some ("cannot resolve snap mount directory: " ++
          "internal error: unresolved snap mount dir") := by
  have h := setRootDir_probe_failure envProbeFail "/" {}
    "internal error: unresolved snap mount dir" rfl rfl
  exact ⟨h.1, h.2.1⟩

end Dirs
